import Mathlib

set_option maxHeartbeats 1000000

/-!
Verification of `libhttp/ssl.c` (shellinabox 2.3): a shallow embedding of the
SNI hostname handling, the per-host certificate-context cache, the PEM/base64
decoder, and SSL session promotion and teardown, together with proofs about
the claims of the specification.

Bytes are modelled as natural numbers (the values 0..255 of `unsigned char`);
C strings are lists of bytes without the terminating NUL unless stated
otherwise.  Pointers into the foreign (OpenSSL) heap are modelled as natural
number identifiers.
-/

/-! ## SNI hostname normalization (`sslSNICallback`, ssl.c lines 294-365)

The callback allocates a buffer `serverName` of `strlen(name)+2` bytes,
writes a sentinel `'-'` at index 0 and then runs a loop over the requested
name.  The loop uses a single index `i` both to read `name[i]` and to write
`serverName[++i]`: when a byte is discarded the write position is skipped as
well, so the buffer keeps its uninitialized `malloc` contents at that hole.
We model the uninitialized memory by an arbitrary function `junk`. -/

/-- Value of a (signed) C `char` holding the byte `ch` (0..255). -/
def sniSigned (ch : Nat) : Int :=
  if ch < 128 then (ch : Int) else (ch : Int) - 256

/-- Condition of the lower-casing branch `ch >= 'A' && ch <= 'Z'` (ssl.c line 310). -/
def sniIsUpper (ch : Nat) : Bool :=
  decide (65 ≤ sniSigned ch ∧ sniSigned ch ≤ 90)

/-- Condition of the skip branch (ssl.c lines 312-314): the byte is discarded
and the loop continues without writing. -/
def sniIsSkipped (ch : Nat) : Bool :=
  decide (ch ≠ 0) && decide (ch ≠ 46) && decide (ch ≠ 45) &&
    (decide (sniSigned ch < 48) || decide (57 < sniSigned ch ∧ sniSigned ch < 65) ||
     decide (90 < sniSigned ch ∧ sniSigned ch < 97) || decide (122 < sniSigned ch))

/-- Writes performed by the normalization loop (ssl.c lines 308-322) on the
suffix of the name starting at input index `i`: a list of
(buffer position, byte) pairs.  Reaching the end of the list corresponds to
reading the terminating NUL of `name`, which is itself written. -/
def sniWrites : List Nat → Nat → List (Nat × Nat)
  | [], i => [(i + 1, 0)]
  | ch :: rest, i =>
    if ch = 0 then [(i + 1, 0)]
    else if sniIsUpper ch then (i + 1, ch + 32) :: sniWrites rest (i + 1)
    else if sniIsSkipped ch then sniWrites rest (i + 1)
    else (i + 1, ch) :: sniWrites rest (i + 1)

/-- Contents of the `serverName` buffer after the loop: position 0 holds the
sentinel `'-'` (ssl.c line 307); a position the loop wrote holds that byte;
any other position still holds the uninitialized `malloc` byte `junk p`. -/
def sniBuffer (junk : Nat → Nat) (name : List Nat) : Nat → Nat :=
  fun p => if p = 0 then 45 else (((sniWrites name 0).lookup p).getD (junk p))

/-- Reads the C string stored in `buf` starting at position `start`, with
explicit fuel (the buffer always holds a NUL within fuel positions). -/
def cStrFrom (buf : Nat → Nat) : Nat → Nat → List Nat
  | _, 0 => []
  | start, fuel + 1 =>
    if buf start = 0 then [] else buf start :: cStrFrom buf (start + 1) fuel

/-- String passed as the trie key to `getFromTrie`/`addToTrie`
(ssl.c lines 327-329 and 357): the C string starting at `serverName + 1`. -/
def sniCacheKeyStr (junk : Nat → Nat) (name : List Nat) : List Nat :=
  cStrFrom (sniBuffer junk name) 1 (name.length + 1)

/-- String passed to `stringPrintf(NULL, ssl->sniCertificatePattern, serverName)`
(ssl.c lines 333-334) as the hostname substituted into the certificate path
template: the C string starting at `serverName` itself. -/
def sniSubstValueStr (junk : Nat → Nat) (name : List Nat) : List Nat :=
  cStrFrom (sniBuffer junk name) 0 (name.length + 2)

/-- Models ssl.c lines 323-329: after the loop the callback returns
"no change" only when `serverName[0]` is NUL (line 323, `if (!*serverName)`);
otherwise it proceeds to the trie lookup with key `serverName + 1`.
Returns `none` for the early "no change" return and `some key` when the
cache lookup is performed with that key. -/
def sniLookupKey (junk : Nat → Nat) (name : List Nat) : Option (List Nat) :=
  if sniBuffer junk name 0 = 0 then none
  else some (sniCacheKeyStr junk name)

/-- Hostname normalization as worded by the specification (§3): lower-case
ASCII letters and discard every byte outside `[a-z0-9.-]`.  This definition
follows the spec, for comparison with the code's behaviour. -/
def specNormalizeHostname (name : List Nat) : List Nat :=
  (name.map (fun c => if 65 ≤ c ∧ c ≤ 90 then c + 32 else c)).filter
    (fun c => decide ((97 ≤ c ∧ c ≤ 122) ∨ (48 ≤ c ∧ c ≤ 57) ∨ c = 46 ∨ c = 45))

/-- The byte list of the name `"Example.Com"`. -/
def exampleSNIName : List Nat := [69, 120, 97, 109, 112, 108, 101, 46, 67, 111, 109]

/-- C1 counterexample: for the requested SNI name `"Example.Com"` (and any
fixed contents of the uninitialized buffer, irrelevant here because no byte
is discarded), the string substituted into the certificate path template is
`"-example.com"` while the cache key is `"example.com"` — they are not the
same string, refuting the claim that both are the same normalized hostname. -/
theorem sniSubstValue_ne_cacheKey_example :
    sniSubstValueStr (fun _ => 7) exampleSNIName ≠
      sniCacheKeyStr (fun _ => 7) exampleSNIName ∧
    sniCacheKeyStr (fun _ => 7) exampleSNIName = [101, 120, 97, 109, 112, 108, 101, 46, 99, 111, 109] ∧
    sniSubstValueStr (fun _ => 7) exampleSNIName = 45 :: [101, 120, 97, 109, 112, 108, 101, 46, 99, 111, 109] := by
  refine ⟨by decide, by decide, by decide⟩

/-- C1 (amended): on an SNI cache miss, the string substituted into the
certificate path template is not the cache key itself but the cache key
prefixed with the sentinel byte `'-'` written at `serverName[0]`
(ssl.c line 307): the template receives `serverName` while the trie receives
`serverName + 1`.  This holds for every requested name and every contents of
the uninitialized parts of the buffer. -/
theorem sniSubstValue_eq_dash_cons_cacheKey (junk : Nat → Nat) (name : List Nat) :
    sniSubstValueStr junk name = 45 :: sniCacheKeyStr junk name := by
  unfold sniSubstValueStr sniCacheKeyStr
  rw [show name.length + 2 = (name.length + 1) + 1 from rfl]
  rw [cStrFrom]
  simp [sniBuffer]

/-- C2: the specification says that a name whose normalization is empty makes
the callback return "no change" without touching the cache, but the guard at
ssl.c line 323 tests `serverName[0]`, which always holds the sentinel `'-'`
written at line 307, so it can never fire: the guard is dead code.  For the
name `"_"` — whose normalization per the specification is empty — the callback
still proceeds to the trie lookup (with a key read from uninitialized
memory), for every possible contents of that memory; in fact it proceeds to
the lookup for every name whatsoever. -/
theorem sniEmptyNormalization_not_shortCircuited :
    specNormalizeHostname [95] = [] ∧
    (∀ junk : Nat → Nat, ∀ name : List Nat, (sniLookupKey junk name).isSome = true) := by
  refine ⟨by decide, ?_⟩
  intro junk name
  simp [sniLookupKey, sniBuffer]

/-! ## Per-host certificate-context cache (`sslSNICallback`, ssl.c lines 294-365)

The trie itself (`initTrie`/`getFromTrie`/`addToTrie`/`destroyTrie`, file
`libhttp/trie.c`) is part of the repository but not among the sources under
study, so it is modelled from the spec: an associative container keyed by the
normalized hostname with insert-if-absent, no eviction and no expiry, whose
destructor invokes the cache's destructor callback on every stored value.
SSL contexts are modelled as identifiers allocated by a counter;
`SSL_CTX_use_certificate_file`/`SSL_CTX_use_PrivateKey_file`/
`SSL_CTX_check_private_key` are foreign calls, abstracted by two oracles
(`loadFirst` for the first load attempt, `loadRetry` for the attempt after
`sslGenerateCertificate`), keyed by the looked-up hostname. -/

/-- Modelled from the spec: lookup in the hostname trie (`getFromTrie`),
as an association list. -/
def getFromTrie : List (List Nat × Nat) → List Nat → Option Nat
  | [], _ => none
  | (k, v) :: rest, key => if k = key then some v else getFromTrie rest key

/-- Destructor callback registered on the trie (ssl.c lines 117-128):
`SSL_CTX_free(context)` is called if and only if the stored context differs
from the default context `ssl->sslContext`.  Returns whether the stored
value is freed. -/
def sslDestroyCachedContext (sslContext context : Nat) : Bool :=
  context != sslContext

/-- Modelled from the spec: contexts freed when the trie is destroyed
(`destroyTrie` applies the destructor callback to every stored value). -/
def destroyTrieFrees (sslContext : Nat) (entries : List (List Nat × Nat)) : List Nat :=
  (entries.map Prod.snd).filter (fun c => sslDestroyCachedContext sslContext c)

/-- State of `struct SSLSupport` relevant to the SNI cache: the trie
(association list from hostname key to context id), the default context
`ssl->sslContext`, and the allocator counter for fresh `SSL_CTX_new` ids. -/
structure SNIState where
  sniContexts : List (List Nat × Nat)
  sslContext : Nat
  nextCtx : Nat
deriving DecidableEq

/-- One invocation of the cache section of `sslSNICallback`
(ssl.c lines 327-364) for the key `serverName + 1`.  Returns the new state,
the context the session is left bound to (ssl.c lines 360-362 switch the
session to `context` exactly when it differs from the default), and the list
of context ids freed during the call (`SSL_CTX_free(context)` at line 351).
On a миss the candidate path load succeeds iff `loadFirst key`, or — when
`generateMissing` is set — iff `loadRetry key` after regenerating
(ssl.c lines 335-346). -/
def sniStep (generateMissing : Bool) (loadFirst loadRetry : List Nat → Bool)
    (st : SNIState) (key : List Nat) : SNIState × Nat × List Nat :=
  match getFromTrie st.sniContexts key with
  | some context => (st, context, [])
  | none =>
    let context := st.nextCtx
    if loadFirst key || (generateMissing && loadRetry key) then
      ({ st with sniContexts := (key, context) :: st.sniContexts, nextCtx := st.nextCtx + 1 },
       context, [])
    else
      ({ st with sniContexts := (key, st.sslContext) :: st.sniContexts, nextCtx := st.nextCtx + 1 },
       st.sslContext, [context])

/-- Iterated invocations of the callback's cache section. -/
def sniRun (generateMissing : Bool) (loadFirst loadRetry : List Nat → Bool)
    (st : SNIState) : List (List Nat) → SNIState
  | [] => st
  | key :: keys => sniRun generateMissing loadFirst loadRetry
      (sniStep generateMissing loadFirst loadRetry st key).1 keys

lemma sniStep_hit (g : Bool) (lf lr : List Nat → Bool) (st : SNIState) (key : List Nat)
    (c : Nat) (h : getFromTrie st.sniContexts key = some c) :
    sniStep g lf lr st key = (st, c, []) := by
  simp [sniStep, h]

lemma getFromTrie_sniStep_preserved (g : Bool) (lf lr : List Nat → Bool) (st : SNIState)
    (key k2 : List Nat) (c : Nat) (h : getFromTrie st.sniContexts key = some c) :
    getFromTrie (sniStep g lf lr st k2).1.sniContexts key = some c := by
  by_cases hk : k2 = key
  · subst hk
    rw [sniStep_hit g lf lr st k2 c h]
    exact h
  · cases hg : getFromTrie st.sniContexts k2 with
    | some c2 =>
      rw [sniStep_hit g lf lr st k2 c2 hg]
      exact h
    | none =>
      simp only [sniStep, hg]
      split <;> (simp only [getFromTrie]; rw [if_neg hk]; exact h)

lemma getFromTrie_sniRun_preserved (g : Bool) (lf lr : List Nat → Bool) (st : SNIState)
    (keys : List (List Nat)) (key : List Nat) (c : Nat)
    (h : getFromTrie st.sniContexts key = some c) :
    getFromTrie (sniRun g lf lr st keys).sniContexts key = some c := by
  induction keys generalizing st with
  | nil => simpa [sniRun] using h
  | cons k2 rest ih =>
    simp only [sniRun]
    exact ih _ (getFromTrie_sniStep_preserved g lf lr st key k2 c h)

lemma sniRun_append_single (g : Bool) (lf lr : List Nat → Bool) (st : SNIState)
    (keys : List (List Nat)) (key : List Nat) :
    sniRun g lf lr st (keys ++ [key]) =
      (sniStep g lf lr (sniRun g lf lr st keys) key).1 := by
  induction keys generalizing st with
  | nil => simp [sniRun]
  | cons k2 rest ih => simp [sniRun, ih]

lemma getFromTrie_after_sniStep (g : Bool) (lf lr : List Nat → Bool) (st : SNIState)
    (key : List Nat) :
    getFromTrie (sniStep g lf lr st key).1.sniContexts key =
      some (sniStep g lf lr st key).2.1 := by
  cases hg : getFromTrie st.sniContexts key with
  | some c =>
    rw [sniStep_hit g lf lr st key c hg]
    exact hg
  | none =>
    simp only [sniStep, hg]
    split <;> simp [getFromTrie]

/-- C7: once a hostname key has been resolved to a context (the first
conjunct: every callback leaves its key mapped to the exactly returned
context), any later sequence of callbacks keeps that mapping (second
conjunct), a later callback for the same key binds the session to the
identical context (third conjunct), and the callback for an already-resolved
key leaves the cache unchanged — no entry is ever evicted or replaced
(fourth conjunct). -/
theorem sniCache_deterministic (g : Bool) (lf lr : List Nat → Bool) (st : SNIState)
    (key : List Nat) (c : Nat) (keys : List (List Nat))
    (h : getFromTrie st.sniContexts key = some c) :
    (∀ (st2 : SNIState) (k2 : List Nat),
        getFromTrie (sniStep g lf lr st2 k2).1.sniContexts k2 =
          some (sniStep g lf lr st2 k2).2.1) ∧
    getFromTrie (sniRun g lf lr st keys).sniContexts key = some c ∧
    (sniStep g lf lr (sniRun g lf lr st keys) key).2.1 = c ∧
    sniRun g lf lr st (keys ++ [key]) = sniRun g lf lr st keys := by
  have hpers := getFromTrie_sniRun_preserved g lf lr st keys key c h
  have hhit := sniStep_hit g lf lr (sniRun g lf lr st keys) key c hpers
  refine ⟨fun st2 k2 => getFromTrie_after_sniStep g lf lr st2 k2, hpers, ?_, ?_⟩
  · rw [hhit]
  · rw [sniRun_append_single, hhit]

/-- C7 witness: concrete run. -/
theorem sniCache_deterministic_witness :
    getFromTrie (sniRun false (fun _ => false) (fun _ => false)
        ⟨[([97], 5)], 3, 10⟩ [[98], [97]]).sniContexts [97] = some 5 ∧
    (sniStep false (fun _ => false) (fun _ => false)
        (sniRun false (fun _ => false) (fun _ => false)
          ⟨[([97], 5)], 3, 10⟩ [[98], [97]]) [97]).2.1 = 5 := by
  have h := sniCache_deterministic false (fun _ => false) (fun _ => false)
    ⟨[([97], 5)], 3, 10⟩ [97] 5 [[98], [97]] (by decide)
  exact ⟨h.2.1, h.2.2.1⟩

/-- C3: on a cache miss for `key` where the certificate load fails (and
auto-provisioning is off or the post-provisioning retry also fails), the
callback frees exactly the freshly allocated context, binds the session to
the default context, and stores the default context pointer itself in the
trie under `key`; the destructor callback frees a stored context iff it is
not the default context, so the fallback entry is never freed by the trie
destructor. -/
theorem sniFallback_caches_default (g : Bool) (lf lr : List Nat → Bool)
    (st : SNIState) (key : List Nat)
    (hmiss : getFromTrie st.sniContexts key = none)
    (hload : lf key = false) (hretry : (g && lr key) = false) :
    (sniStep g lf lr st key).2.1 = st.sslContext ∧
    getFromTrie (sniStep g lf lr st key).1.sniContexts key = some st.sslContext ∧
    (sniStep g lf lr st key).2.2 = [st.nextCtx] ∧
    (∀ d c : Nat, sslDestroyCachedContext d c = true ↔ c ≠ d) ∧
    (∀ entries : List (List Nat × Nat), st.sslContext ∉ destroyTrieFrees st.sslContext entries) := by
  have hcond : (lf key || (g && lr key)) = false := by
    simp [hload, hretry]
  refine ⟨?_, ?_, ?_, ?_, ?_⟩
  · simp [sniStep, hmiss, hcond]
  · simp [sniStep, hmiss, hcond, getFromTrie]
  · simp [sniStep, hmiss, hcond]
  · intro d c
    simp [sslDestroyCachedContext]
  · intro entries
    simp [destroyTrieFrees, sslDestroyCachedContext, List.mem_filter]

/-- C3 witness: concrete miss with provisioning off and a failing load. -/
theorem sniFallback_caches_default_witness :
    (sniStep false (fun _ => false) (fun _ => false) ⟨[], 7, 20⟩ [97, 98]).2.1 = 7 ∧
    getFromTrie (sniStep false (fun _ => false) (fun _ => false)
        ⟨[], 7, 20⟩ [97, 98]).1.sniContexts [97, 98] = some 7 ∧
    (sniStep false (fun _ => false) (fun _ => false) ⟨[], 7, 20⟩ [97, 98]).2.2 = [20] := by
  have h := sniFallback_caches_default false (fun _ => false) (fun _ => false)
    ⟨[], 7, 20⟩ [97, 98] (by decide) (by decide) (by decide)
  exact ⟨h.1, h.2.1, h.2.2.1⟩

/-! ## PEM armored-block decoding (`sslPEMtoASN1`, ssl.c lines 463-527)

`sslPEMtoASN1` locates the first occurrence of `"-----BEGIN <record>-----"`
in the input, then the first occurrence of `"-----END <record>-----"` after
it, and base64-decodes the region in between with a 6-bit accumulator held
in a 32-bit unsigned `bits`.  The two marker-missing exits (ssl.c lines
470-472 and 480-481, `return NULL` with `*size` still -1) and the decode
error exit (lines 511-513, `free(ret); return NULL`) are distinct control
paths, modelled by distinct constructors. -/

/-- Base64 value of a byte, per the decoder's alphabet cases
(ssl.c lines 491-499). -/
def b64Val (ch : Nat) : Option Nat :=
  if 65 ≤ ch ∧ ch ≤ 90 then some (ch - 65)
  else if 97 ≤ ch ∧ ch ≤ 122 then some (ch - 97 + 26)
  else if 48 ≤ ch ∧ ch ≤ 57 then some (ch + 52 - 48)
  else if ch = 43 then some 62
  else if ch = 47 then some 63
  else none

/-- The decode loop (ssl.c lines 489-523): `bits` is the 32-bit accumulator,
`count` the number of pending bits, `acc` the output bytes in reverse order.
A byte in the alphabet shifts 6 bits in and emits a byte once 8 bits are
pending; `'='` (61) starts padding, after which every remaining byte must be
`'='` or whitespace (`<= ' '`, ssl.c lines 501-507); whitespace is skipped;
anything else is the error exit (`none`). -/
def sslB64Decode : List Nat → Nat → Nat → List Nat → Option (List Nat)
  | [], _, _, acc => some acc.reverse
  | ch :: rest, bits, count, acc =>
    match b64Val ch with
    | some v =>
      let bits2 := ((bits <<< 6) ||| v) % 4294967296
      let count2 := count + 6
      if 8 ≤ count2 then
        sslB64Decode rest bits2 (count2 - 8) (((bits2 >>> (count2 - 8)) &&& 255) :: acc)
      else
        sslB64Decode rest bits2 count2 acc
    | none =>
      if ch = 61 then
        if rest.all (fun b => b == 61 || decide (b ≤ 32)) then some acc.reverse else none
      else if ch ≤ 32 then
        sslB64Decode rest bits count acc
      else
        none

/-- Bytes of `"-----BEGIN "` followed by the record label and `"-----"`. -/
def beginMarker (record : List Nat) : List Nat :=
  [45, 45, 45, 45, 45, 66, 69, 71, 73, 78, 32] ++ record ++ [45, 45, 45, 45, 45]

/-- Bytes of `"-----END "` followed by the record label and `"-----"`. -/
def endMarker (record : List Nat) : List Nat :=
  [45, 45, 45, 45, 45, 69, 78, 68, 32] ++ record ++ [45, 45, 45, 45, 45]

/-- Models `strstr`: the suffix of the haystack starting at the first
occurrence of the needle, or `none` when the needle does not occur. -/
def strstrSuffix (needle : List Nat) : List Nat → Option (List Nat)
  | [] => if needle.isPrefixOf ([] : List Nat) then some [] else none
  | h :: t =>
    if needle.isPrefixOf (h :: t) then some (h :: t) else strstrSuffix needle t

/-- Models the second `strstr`: splits the haystack at the first occurrence
of the needle, returning the part before it and the suffix starting at it. -/
def splitBeforeSub (needle : List Nat) : List Nat → Option (List Nat × List Nat)
  | [] => if needle.isPrefixOf ([] : List Nat) then some ([], []) else none
  | h :: t =>
    if needle.isPrefixOf (h :: t) then some ([], h :: t)
    else
      match splitBeforeSub needle t with
      | some (pre, rest) => some (h :: pre, rest)
      | none => none

/-- Result of `sslPEMtoASN1`: in C both non-success paths return `NULL` with
`*size` = -1, but they are distinct control paths — the marker-missing
returns at ssl.c lines 470-472 and 480-481 (nothing decoded, the spec's
"not present"), and the error exit at lines 511-513, which frees the
partially decoded buffer. -/
inductive PEMResult
  | notPresent
  | decodeError
  | payload (bytes : List Nat)
deriving DecidableEq

/-- The value stored through the out-parameter `long *size`: -1 unless the
decode succeeded, in which case it is the number of decoded bytes. -/
def PEMResult.retSize : PEMResult → Int
  | .notPresent => -1
  | .decodeError => -1
  | .payload bytes => bytes.length

/-- Shallow embedding of `sslPEMtoASN1` (ssl.c lines 463-527). -/
def sslPEMtoASN1 (pem record : List Nat) : PEMResult :=
  match strstrSuffix (beginMarker record) pem with
  | none => .notPresent
  | some s =>
    match splitBeforeSub (endMarker record) (s.drop (beginMarker record).length) with
    | none => .notPresent
    | some (region, _) =>
      match sslB64Decode region 0 0 [] with
      | none => .decodeError
      | some bytes => .payload bytes

/-- C6: (1) if the BEGIN marker does not occur the result is "not present";
(2) likewise if the END marker does not occur after it; (3) the decode loop
errors on any byte that is outside the base64 alphabet, not `'='`, and not
whitespace; (4) `'='` begins padding: decoding stops and succeeds iff every
remaining byte is `'='` or whitespace, and errors otherwise; (5) a decode
loop error makes the whole call return the decode-error exit, which frees
the partially decoded buffer and yields no payload. -/
theorem sslPEMtoASN1_error_cases :
    (∀ pem record : List Nat, strstrSuffix (beginMarker record) pem = none →
       sslPEMtoASN1 pem record = .notPresent) ∧
    (∀ pem record s : List Nat, strstrSuffix (beginMarker record) pem = some s →
       splitBeforeSub (endMarker record) (s.drop (beginMarker record).length) = none →
       sslPEMtoASN1 pem record = .notPresent) ∧
    (∀ (ch : Nat) (rest : List Nat) (bits count : Nat) (acc : List Nat),
       b64Val ch = none → ch ≠ 61 → 32 < ch →
       sslB64Decode (ch :: rest) bits count acc = none) ∧
    (∀ (rest : List Nat) (bits count : Nat) (acc : List Nat),
       sslB64Decode (61 :: rest) bits count acc =
         if rest.all (fun b => b == 61 || decide (b ≤ 32)) then some acc.reverse else none) ∧
    (∀ pem record s region rest2 : List Nat,
       strstrSuffix (beginMarker record) pem = some s →
       splitBeforeSub (endMarker record) (s.drop (beginMarker record).length) = some (region, rest2) →
       sslB64Decode region 0 0 [] = none →
       sslPEMtoASN1 pem record = .decodeError) := by
  refine ⟨?_, ?_, ?_, ?_, ?_⟩
  · intro pem record h
    simp [sslPEMtoASN1, h]
  · intro pem record s h1 h2
    simp [sslPEMtoASN1, h1, h2]
  · intro ch rest bits count acc hval hne hws
    simp only [sslB64Decode, hval]
    rw [if_neg hne, if_neg (by omega)]
  · intro rest bits count acc
    simp [sslB64Decode, b64Val]
  · intro pem record s region rest2 h1 h2 h3
    simp [sslPEMtoASN1, h1, h2, h3]

/-- C6 witness: the empty input has no CERTIFICATE BEGIN marker, and the
byte `'%'` (37) inside a decode region is a decode error. -/
theorem sslPEMtoASN1_error_cases_witness :
    sslPEMtoASN1 [] [67] = .notPresent ∧
    sslB64Decode [37] 0 0 [] = none := by
  exact ⟨sslPEMtoASN1_error_cases.1 [] [67] (by decide),
         sslPEMtoASN1_error_cases.2.2.1 37 [] 0 0 [] (by decide) (by decide) (by decide)⟩

/-! ## Base64 round-trip (claim C8)

`b64Chr`/`b64Encode` implement standard base64 encoding with `'='` padding,
following the spec's wording ("encoding it as standard base64"); the
round-trip theorem composes them with the decoder embedded above. -/

/-- Character of the standard base64 alphabet for a 6-bit value. -/
def b64Chr (k : Nat) : Nat :=
  if k < 26 then 65 + k
  else if k < 52 then 97 + (k - 26)
  else if k < 62 then 48 + (k - 52)
  else if k = 62 then 43
  else 47

/-- Standard base64 encoding of a byte sequence, processing three input
bytes into four alphabet characters, with `'='` padding for a final group
of one or two bytes. -/
def b64Encode : List Nat → List Nat
  | [] => []
  | [b1] => [b64Chr (b1 / 4), b64Chr (b1 % 4 * 16), 61, 61]
  | [b1, b2] => [b64Chr (b1 / 4), b64Chr (b1 % 4 * 16 + b2 / 16), b64Chr (b2 % 16 * 4), 61]
  | b1 :: b2 :: b3 :: rest =>
    b64Chr (b1 / 4) :: b64Chr (b1 % 4 * 16 + b2 / 16) ::
      b64Chr (b2 % 16 * 4 + b3 / 64) :: b64Chr (b3 % 64) :: b64Encode rest

lemma b64Val_b64Chr {k : Nat} (h : k < 64) : b64Val (b64Chr k) = some k := by
  revert h
  revert k
  decide

lemma b64Chr_ne_dash (k : Nat) : b64Chr k ≠ 45 := by
  unfold b64Chr
  split
  · omega
  · split
    · omega
    · split
      · omega
      · split <;> omega

lemma b64Encode_ne_dash : ∀ (data : List Nat), ∀ c ∈ b64Encode data, c ≠ 45 := by
  intro data
  induction data using b64Encode.induct with
  | case1 => simp [b64Encode]
  | case2 b1 =>
    simp only [b64Encode, List.mem_cons, List.not_mem_nil, or_false]
    rintro c (rfl | rfl | rfl | rfl) <;> first | exact b64Chr_ne_dash _ | omega
  | case3 b1 b2 =>
    simp only [b64Encode, List.mem_cons, List.not_mem_nil, or_false]
    rintro c (rfl | rfl | rfl | rfl) <;> first | exact b64Chr_ne_dash _ | omega
  | case4 b1 b2 b3 rest ih =>
    simp only [b64Encode, List.mem_cons]
    rintro c (rfl | rfl | rfl | rfl | hc)
    · exact b64Chr_ne_dash _
    · exact b64Chr_ne_dash _
    · exact b64Chr_ne_dash _
    · exact b64Chr_ne_dash _
    · exact ih c hc

lemma shiftLeft_lor_eq_add : ∀ (n x v : Nat), v < 2 ^ n → (x <<< n) ||| v = x * 2 ^ n + v := by
  intro n
  induction n with
  | zero =>
    intro x v hv
    interval_cases v
    simp
  | succ n ih =>
    intro x v hv
    have hsh : x <<< (n + 1) = 2 * (x <<< n) := by
      rw [Nat.shiftLeft_succ, Nat.mul_comm]
    have hdiv : (x <<< (n + 1) ||| v) / 2 = (x <<< n) ||| (v / 2) := by
      rw [Nat.or_div_two, hsh]
      simp [Nat.mul_div_cancel_left]
    have hmod : (x <<< (n + 1) ||| v) % 2 = v % 2 := by
      rcases Nat.mod_two_eq_zero_or_one v with h | h
      · rcases Nat.mod_two_eq_zero_or_one (x <<< (n + 1) ||| v) with h2 | h2
        · omega
        · rw [Nat.or_mod_two_eq_one] at h2
          omega
      · have h2 : (x <<< (n + 1) ||| v) % 2 = 1 := by
          rw [Nat.or_mod_two_eq_one]
          omega
        omega
    have hv2 : v / 2 < 2 ^ n := by
      have hpow : (2 : Nat) ^ (n + 1) = 2 * 2 ^ n := by ring
      omega
    have hih := ih x (v / 2) hv2
    have hpow : (2 : Nat) ^ (n + 1) = 2 * 2 ^ n := by ring
    omega

/-- The accumulator update `(bits << 6) | v`, rewritten to plain arithmetic. -/
lemma b64mix_eq (x v : Nat) (hv : v < 64) :
    ((x <<< 6) ||| v) % 4294967296 = (x * 64 + v) % 4294967296 := by
  rw [shiftLeft_lor_eq_add 6 x v (by norm_num; omega)]
  norm_num

lemma and255_eq_mod (x : Nat) : x &&& 255 = x % 256 := by
  have h := Nat.and_pow_two_sub_one_eq_mod x 8
  norm_num at h
  exact h

lemma sslB64Decode_cons_val {ch v : Nat} (h : b64Val ch = some v) (rest : List Nat)
    (bits count : Nat) (acc : List Nat) :
    sslB64Decode (ch :: rest) bits count acc =
      if 8 ≤ count + 6 then
        sslB64Decode rest (((bits <<< 6) ||| v) % 4294967296) (count + 6 - 8)
          ((((((bits <<< 6) ||| v) % 4294967296) >>> (count + 6 - 8)) &&& 255) :: acc)
      else
        sslB64Decode rest (((bits <<< 6) ||| v) % 4294967296) (count + 6) acc := by
  simp only [sslB64Decode, h]

lemma b64Val_61 : b64Val 61 = none := by decide

lemma sslB64Decode_b64Encode : ∀ (data : List Nat), (∀ b ∈ data, b < 256) →
    ∀ (bits : Nat) (acc : List Nat),
      sslB64Decode (b64Encode data) bits 0 acc = some (acc.reverse ++ data) := by
  intro data
  induction data using b64Encode.induct with
  | case1 =>
    intro _ bits acc
    simp [b64Encode, sslB64Decode]
  | case2 b1 =>
    intro hd bits acc
    have h1 : b1 < 256 := hd b1 (by simp)
    rw [b64Encode]
    rw [sslB64Decode_cons_val (b64Val_b64Chr (by omega)), if_neg (by norm_num)]
    rw [sslB64Decode_cons_val (b64Val_b64Chr (by omega)), if_pos (by norm_num)]
    norm_num
    rw [b64mix_eq bits (b1 / 4) (by omega)]
    rw [b64mix_eq _ (b1 % 4 * 16) (by omega)]
    simp only [sslB64Decode, b64Val_61, Nat.shiftRight_eq_div_pow, and255_eq_mod]
    norm_num
    omega
  | case3 b1 b2 =>
    intro hd bits acc
    have h1 : b1 < 256 := hd b1 (by simp)
    have h2 : b2 < 256 := hd b2 (by simp)
    rw [b64Encode]
    rw [sslB64Decode_cons_val (b64Val_b64Chr (by omega)), if_neg (by norm_num)]
    rw [sslB64Decode_cons_val (b64Val_b64Chr (by omega)), if_pos (by norm_num)]
    norm_num
    rw [sslB64Decode_cons_val (b64Val_b64Chr (by omega)), if_pos (by norm_num)]
    norm_num
    rw [b64mix_eq bits (b1 / 4) (by omega)]
    rw [b64mix_eq _ (b1 % 4 * 16 + b2 / 16) (by omega)]
    rw [b64mix_eq _ (b2 % 16 * 4) (by omega)]
    simp only [sslB64Decode, b64Val_61, Nat.shiftRight_eq_div_pow, and255_eq_mod]
    norm_num
    constructor
    · omega
    · omega
  | case4 b1 b2 b3 rest ih =>
    intro hd bits acc
    have h1 : b1 < 256 := hd b1 (by simp)
    have h2 : b2 < 256 := hd b2 (by simp)
    have h3 : b3 < 256 := hd b3 (by simp)
    have hrest : ∀ b ∈ rest, b < 256 := fun b hb => hd b (by simp [hb])
    rw [b64Encode]
    rw [sslB64Decode_cons_val (b64Val_b64Chr (by omega)), if_neg (by norm_num)]
    rw [sslB64Decode_cons_val (b64Val_b64Chr (by omega)), if_pos (by norm_num)]
    norm_num
    rw [sslB64Decode_cons_val (b64Val_b64Chr (by omega)), if_pos (by norm_num)]
    norm_num
    rw [sslB64Decode_cons_val (b64Val_b64Chr (by omega)), if_pos (by norm_num)]
    norm_num
    rw [b64mix_eq bits (b1 / 4) (by omega)]
    rw [b64mix_eq _ (b1 % 4 * 16 + b2 / 16) (by omega)]
    rw [b64mix_eq _ (b2 % 16 * 4 + b3 / 64) (by omega)]
    rw [b64mix_eq _ (b3 % 64) (by omega)]
    rw [ih hrest]
    simp only [Nat.shiftRight_eq_div_pow, and255_eq_mod, List.reverse_cons,
      List.append_assoc, List.cons_append, List.nil_append, Option.some.injEq]
    norm_num
    omega

lemma isPrefixOf_append_self : ∀ (m rest : List Nat), m.isPrefixOf (m ++ rest) = true := by
  intro m
  induction m with
  | nil =>
    intro rest
    rw [List.nil_append]
    cases rest <;> rfl
  | cons a t ih =>
    intro rest
    simp only [List.cons_append, List.isPrefixOf, beq_self_eq_true, Bool.true_and]
    exact ih rest

lemma isPrefixOf_self (m : List Nat) : m.isPrefixOf m = true := by
  have h := isPrefixOf_append_self m []
  rwa [List.append_nil] at h

lemma isPrefixOf_cons_append (a : Nat) (t rest : List Nat) :
    (a :: t).isPrefixOf (a :: (t ++ rest)) = true :=
  isPrefixOf_append_self (a :: t) rest

lemma strstrSuffix_append_self (m rest : List Nat) (hm : m ≠ []) :
    strstrSuffix m (m ++ rest) = some (m ++ rest) := by
  cases m with
  | nil => exact absurd rfl hm
  | cons a t =>
    simp [strstrSuffix, List.append_eq, isPrefixOf_cons_append]

lemma splitBeforeSub_no_dash (m2 : List Nat) :
    ∀ xs : List Nat, (∀ c ∈ xs, c ≠ 45) →
      splitBeforeSub (45 :: m2) (xs ++ 45 :: m2) = some (xs, 45 :: m2) := by
  intro xs
  induction xs with
  | nil =>
    intro _
    simp only [List.nil_append, splitBeforeSub]
    rw [if_pos (isPrefixOf_self (45 :: m2))]
  | cons c t ih =>
    intro hc
    have hc45 : ((45 : Nat) == c) = false := by
      have h1 : c ≠ 45 := hc c (by simp)
      simp [Ne.symm h1]
    simp only [List.cons_append, splitBeforeSub, List.isPrefixOf, hc45, Bool.false_and,
      Bool.false_eq_true, if_false, List.append_eq]
    rw [ih (fun d hd => hc d (by simp [hd]))]

/-- C8: encoding any byte sequence as standard base64, wrapping it between
the BEGIN/END markers of any record label (certificate or any private-key
label), and decoding with `sslPEMtoASN1` yields exactly the original byte
sequence, with the returned `*size` equal to the original length. -/
theorem sslPEMtoASN1_roundtrip (record data : List Nat) (hd : ∀ b ∈ data, b < 256) :
    sslPEMtoASN1 (beginMarker record ++ (b64Encode data ++ endMarker record)) record =
      .payload data ∧
    (sslPEMtoASN1 (beginMarker record ++ (b64Encode data ++ endMarker record)) record).retSize =
      (data.length : Int) := by
  have hne : beginMarker record ≠ [] := by simp [beginMarker]
  have h1 := strstrSuffix_append_self (beginMarker record)
    (b64Encode data ++ endMarker record) hne
  have hdrop : (beginMarker record ++ (b64Encode data ++ endMarker record)).drop
      (beginMarker record).length = b64Encode data ++ endMarker record := List.drop_left _ _
  have hEnd : endMarker record =
      45 :: ([45, 45, 45, 45, 69, 78, 68, 32] ++ record ++ [45, 45, 45, 45, 45]) := rfl
  have h2 : splitBeforeSub (endMarker record) (b64Encode data ++ endMarker record) =
      some (b64Encode data, endMarker record) := by
    rw [hEnd]
    exact splitBeforeSub_no_dash _ (b64Encode data) (b64Encode_ne_dash data)
  have h3 := sslB64Decode_b64Encode data hd 0 []
  have hres : sslPEMtoASN1 (beginMarker record ++ (b64Encode data ++ endMarker record))
      record = .payload data := by
    simp only [sslPEMtoASN1, h1, hdrop, h2, h3]
    simp
  refine ⟨hres, ?_⟩
  rw [hres]
  simp [PEMResult.retSize]

/-- C8 witness: a concrete two-byte payload under the label `"C"`. -/
theorem sslPEMtoASN1_roundtrip_witness :
    sslPEMtoASN1 (beginMarker [67] ++ (b64Encode [1, 250] ++ endMarker [67])) [67] =
      .payload [1, 250] :=
  (sslPEMtoASN1_roundtrip [67] [1, 250] (by decide)).1

/-! ## SSL session promotion and teardown (`sslPromoteToSSL` ssl.c lines 607-638,
`sslFreeHndl` ssl.c lines 640-695)

The OpenSSL objects are foreign: BIOs and SSL sessions live in a heap of
identifiers.  A `BIOObj` records the chain links `next_bio`/`prev_bio`, the
reference count and (for a buffering BIO) the seeded read data; an `SSLSess`
records the partial-write mode flag (`SSL_MODE_ENABLE_PARTIAL_WRITE`), the
accept-state flag and the two BIO endpoints.  `check(...)` failures,
`fatal(...)` and dereferences of NULL or dangling BIO pointers all terminate
the process without returning; they are modelled by the `abort` outcome,
which records what had been freed up to that point.  The error-queue calls
(`ERR_clear_error`/`ERR_peek_error`) keep no state relevant to the claims and
are not modelled. -/

/-- Kind of a BIO: a socket BIO over a descriptor (`BIO_new_socket`) or a
buffering adapter (`BIO_new(BIO_f_buffer())`). -/
inductive BIOKind
  | socket (fd : Int)
  | fbuffer
deriving DecidableEq

/-- A BIO object in the foreign heap. -/
structure BIOObj where
  kind : BIOKind
  next_bio : Option Nat := none
  prev_bio : Option Nat := none
  references : Nat := 1
  bufReadData : List Nat := []
deriving DecidableEq

/-- An SSL session object. -/
structure SSLSess where
  modePartialWrite : Bool := false
  acceptState : Bool := false
  rbio : Option Nat := none
  wbio : Option Nat := none
deriving DecidableEq

/-- The world seen through a caller's `SSL **sslHndl` slot: the session the
slot points to (if any), the BIO heap, and the allocator counter. -/
structure SSLWorld where
  hndl : Option SSLSess
  bios : List (Nat × BIOObj) := []
  nextBio : Nat := 0
deriving DecidableEq

/-- Dereferences a BIO pointer in the heap. -/
def bioGet : List (Nat × BIOObj) → Nat → Option BIOObj
  | [], _ => none
  | (k, o) :: rest, i => if k = i then some o else bioGet rest i

/-- Updates the BIO object stored under `i`. -/
def bioModify (bios : List (Nat × BIOObj)) (i : Nat) (f : BIOObj → BIOObj) :
    List (Nat × BIOObj) :=
  bios.map (fun p => if p.1 = i then (p.1, f p.2) else p)

/-- Models OpenSSL `BIO_pop(b)`: returns `b->next_bio` and unlinks `b` from
its chain (`b->prev_bio->next_bio = b->next_bio`,
`b->next_bio->prev_bio = b->prev_bio`, then both links of `b` are cleared). -/
def BIO_pop (bios : List (Nat × BIOObj)) (b : Nat) : Option Nat × List (Nat × BIOObj) :=
  match bioGet bios b with
  | none => (none, bios)
  | some bo =>
    (bo.next_bio,
      bioModify
        (match bo.next_bio with
         | some n =>
           bioModify
             (match bo.prev_bio with
              | some p => bioModify bios p (fun o => { o with next_bio := bo.next_bio })
              | none => bios)
             n (fun o => { o with prev_bio := bo.prev_bio })
         | none =>
           match bo.prev_bio with
           | some p => bioModify bios p (fun o => { o with next_bio := bo.next_bio })
           | none => bios)
        b (fun o => { o with next_bio := none, prev_bio := none }))

/-- Identifiers of the BIOs on the chain starting at `i` and following
`next_bio` links (the objects freed by OpenSSL `BIO_free_all`). -/
def bioChain (bios : List (Nat × BIOObj)) : Nat → Nat → List Nat
  | 0, _ => []
  | fuel + 1, i =>
    i :: (match bioGet bios i with
          | some o =>
            (match o.next_bio with
             | some n => bioChain bios fuel n
             | none => [])
          | none => [])

/-- BIO identifiers freed by OpenSSL `SSL_free(s)`: the read-BIO chain, and
the write-BIO chain when it is a different object. -/
def SSL_free_frees (bios : List (Nat × BIOObj)) (s : SSLSess) : List Nat :=
  (match s.rbio with
   | some rb => bioChain bios (bios.length + 1) rb
   | none => []) ++
  (if s.wbio = s.rbio then []
   else
     match s.wbio with
     | some wb => bioChain bios (bios.length + 1) wb
     | none => [])

/-- Outcome of `sslFreeHndl`: normal completion with the new world, the BIO
identifiers freed and whether the session object was freed; or process
termination (`check`/`fatal`/invalid dereference) recording what had been
freed before dying. -/
inductive FreeOutcome
  | ok (w : SSLWorld) (freedBIOs : List Nat) (sslFreed : Bool)
  | abort (freedBIOs : List Nat) (sslFreed : Bool)
deriving DecidableEq

/-- Shallow embedding of `sslFreeHndl` (ssl.c lines 640-695): a NULL handle
is a no-op apart from clearing the slot; otherwise the endpoints are fetched
(`check`ed non-NULL), and for distinct endpoints the two recognized chain
shapes are repaired before `SSL_free` — pattern A at lines 655-662, pattern B
at lines 663-682 (whose test `writeBIO->next_bio->prev_bio` dereferences a
NULL or dangling pointer when `writeBIO->next_bio` is NULL or unallocated:
modelled as `abort`) — and any other shape is `fatal` (lines 683-688). -/
def sslFreeHndl (w : SSLWorld) : FreeOutcome :=
  match w.hndl with
  | none => .ok { w with hndl := none } [] false
  | some s =>
    match s.wbio with
    | none => .abort [] false
    | some wb =>
      match s.rbio with
      | none => .abort [] false
      | some rb =>
        if wb = rb then
          .ok { w with hndl := none } (SSL_free_frees w.bios s) true
        else
          match bioGet w.bios rb with
          | none => .abort [] false
          | some rbo =>
            if rbo.next_bio = some wb then
              if (BIO_pop w.bios rb).1 ≠ some wb then .abort [] false
              else
                match bioGet (BIO_pop w.bios rb).2 rb, bioGet (BIO_pop w.bios rb).2 wb with
                | some rbo1, some wbo1 =>
                  if rbo1.references = 1 ∧ wbo1.references = 1 ∧
                      rbo1.next_bio = none ∧ wbo1.prev_bio = none then
                    .ok { w with hndl := none, bios := (BIO_pop w.bios rb).2 }
                      (SSL_free_frees (BIO_pop w.bios rb).2 s) true
                  else .abort [] false
                | _, _ => .abort [] false
            else
              match bioGet w.bios wb with
              | none => .abort [] false
              | some wbo =>
                if rbo.next_bio = wbo.next_bio then
                  match wbo.next_bio with
                  | none => .abort [] false
                  | some sk =>
                    match bioGet w.bios sk with
                    | none => .abort [] false
                    | some sko =>
                      if sko.prev_bio = some wb then
                        match (BIO_pop w.bios rb).1 with
                        | none => .abort [] false
                        | some sk1 =>
                          if (BIO_pop (BIO_pop w.bios rb).2 wb).1 ≠ some sk1 then
                            .abort [] false
                          else
                            match bioGet (BIO_pop (BIO_pop w.bios rb).2 wb).2 rb,
                                bioGet (BIO_pop (BIO_pop w.bios rb).2 wb).2 wb,
                                bioGet (BIO_pop (BIO_pop w.bios rb).2 wb).2 sk1 with
                            | some rbo2, some wbo2, some sko2 =>
                              if rbo2.references = 1 ∧ wbo2.references = 1 ∧
                                  sko2.references = 1 ∧ rbo2.next_bio = none ∧
                                  wbo2.next_bio = none ∧ sko2.prev_bio = none then
                                .ok { w with hndl := none, bios := (BIO_pop (BIO_pop w.bios rb).2 wb).2 }
                                  (bioChain (BIO_pop (BIO_pop w.bios rb).2 wb).2
                                      ((BIO_pop (BIO_pop w.bios rb).2 wb).2.length + 1) sk1 ++
                                    SSL_free_frees (BIO_pop (BIO_pop w.bios rb).2 wb).2 s) true
                              else .abort [] false
                            | _, _, _ => .abort [] false
                      else .abort [] false
                else .abort [] false

/-- Outcome of `sslPromoteToSSL`: success (`rc = 0`) with the new world,
failure (`rc = -1`, `errno = EINVAL`, after `SSL_new` returned NULL and the
slot was left NULL), or process termination by `check(!*sslHndl)` with the
world untouched. -/
inductive PromoteOutcome
  | ok (w : SSLWorld)
  | fail (w : SSLWorld)
  | abort (w : SSLWorld)
deriving DecidableEq

/-- Shallow embedding of `sslPromoteToSSL` (ssl.c lines 607-638).
`check(!*sslHndl)` (line 612) terminates the process when the caller's slot
is already non-NULL, before anything is allocated.  `SSL_new` may fail
(oracle `sslNewOk`); on success the session gets
`SSL_MODE_ENABLE_PARTIAL_WRITE` (line 620), a socket BIO over `fd` as write
endpoint (line 621), and — when `len > 0` — a buffering BIO seeded with the
first `len` bytes of `buf`, pushed onto the socket BIO, as read endpoint
(lines 623-627), otherwise the socket BIO itself; finally
`SSL_set_accept_state` (line 629). -/
def sslPromoteToSSL (sslNewOk : Bool) (w : SSLWorld) (fd : Int) (buf : List Nat)
    (len : Int) : PromoteOutcome :=
  if w.hndl.isSome then .abort w
  else if ¬ sslNewOk then .fail { w with hndl := none }
  else if len > 0 then
    .ok { hndl := some { modePartialWrite := true, acceptState := true,
                         rbio := some (w.nextBio + 1), wbio := some w.nextBio },
          bios := (w.nextBio + 1,
              { kind := .fbuffer, next_bio := some w.nextBio,
                bufReadData := buf.take len.toNat }) ::
            bioModify ((w.nextBio, { kind := .socket fd }) :: w.bios) w.nextBio
              (fun o => { o with prev_bio := some (w.nextBio + 1) }),
          nextBio := w.nextBio + 2 }
  else
    .ok { hndl := some { modePartialWrite := true, acceptState := true,
                         rbio := some w.nextBio, wbio := some w.nextBio },
          bios := (w.nextBio, { kind := .socket fd }) :: w.bios,
          nextBio := w.nextBio + 1 }

lemma sslFreeHndl_null (w : SSLWorld) (h : w.hndl = none) :
    sslFreeHndl w = .ok w [] false := by
  cases w with
  | mk hndl bios nextBio =>
    simp only at h
    subst h
    rfl

lemma sslFreeHndl_ok_hndl_none (w w2 : SSLWorld) (f : List Nat) (b : Bool)
    (h : sslFreeHndl w = .ok w2 f b) : w2.hndl = none := by
  unfold sslFreeHndl at h
  repeat' split at h
  all_goals first
    | (injection h with h1 h2 h3
       subst h1
       rfl)
    | injection h

/-- C5: releasing a handle whose session pointer is NULL frees nothing and
only (re)sets the pointer to NULL (first conjunct; ssl.c lines 642 and 694);
and any release that completes normally leaves the pointer NULL, so an
immediately repeated release is that same free-nothing no-op — no crash and
no double free (second conjunct). -/
theorem sslFreeHndl_idempotent :
    (∀ w : SSLWorld, w.hndl = none → sslFreeHndl w = .ok w [] false) ∧
    (∀ (w w2 : SSLWorld) (f : List Nat) (b : Bool), sslFreeHndl w = .ok w2 f b →
        w2.hndl = none ∧ sslFreeHndl w2 = .ok w2 [] false) := by
  refine ⟨sslFreeHndl_null, ?_⟩
  intro w w2 f b h
  have hn := sslFreeHndl_ok_hndl_none w w2 f b h
  exact ⟨hn, sslFreeHndl_null w2 hn⟩

/-- C5 witness: a NULL handle (as left behind by a promotion whose `SSL_new`
failed) is released as a no-op, twice in a row. -/
theorem sslFreeHndl_idempotent_witness :
    sslFreeHndl ⟨none, [(5, ⟨.socket 3, none, none, 1, []⟩)], 6⟩ =
      .ok ⟨none, [(5, ⟨.socket 3, none, none, 1, []⟩)], 6⟩ [] false ∧
    sslFreeHndl ⟨none, [], 0⟩ = .ok ⟨none, [], 0⟩ [] false :=
  ⟨sslFreeHndl_idempotent.1 _ rfl, sslFreeHndl_idempotent.1 _ rfl⟩

/-- C4: for a session with distinct read and write endpoints whose chain
matches neither pattern A (the read endpoint's next link is the write
endpoint) nor pattern B (both endpoints share the same next link, a socket
endpoint whose back link is the write endpoint), the release terminates the
process — by `fatal` (ssl.c line 687), or by dereferencing a NULL or
dangling `writeBIO->next_bio` in the pattern-B test itself — having freed
nothing. -/
theorem sslFreeHndl_unknown_topology_aborts
    (w : SSLWorld) (s : SSLSess) (wb rb : Nat) (rbo : BIOObj)
    (hh : w.hndl = some s) (hw : s.wbio = some wb) (hr : s.rbio = some rb)
    (hne : wb ≠ rb)
    (hrbo : bioGet w.bios rb = some rbo)
    (hnA : rbo.next_bio ≠ some wb)
    (hnB : ∀ wbo : BIOObj, bioGet w.bios wb = some wbo →
        ∀ sk : Nat, wbo.next_bio = some sk → rbo.next_bio = some sk →
        ∀ sko : BIOObj, bioGet w.bios sk = some sko → sko.prev_bio ≠ some wb) :
    sslFreeHndl w = .abort [] false := by
  simp only [sslFreeHndl, hh, hw, hr, hrbo]
  rw [if_neg hne, if_neg hnA]
  cases hwo : bioGet w.bios wb with
  | none => rfl
  | some wbo =>
    dsimp only
    by_cases heq : rbo.next_bio = wbo.next_bio
    · rw [if_pos heq]
      cases hwn : wbo.next_bio with
      | none => rfl
      | some sk =>
        dsimp only
        cases hsko : bioGet w.bios sk with
        | none => rfl
        | some sko =>
          dsimp only
          rw [if_neg (hnB wbo hwo sk hwn (heq.trans hwn) sko hsko)]
    · rw [if_neg heq]

/-- C4 witness: two distinct singleton BIOs (both next links NULL) match
neither pattern; the pattern-B test dereferences the NULL
`writeBIO->next_bio` and the process dies with nothing freed. -/
theorem sslFreeHndl_unknown_topology_aborts_witness :
    sslFreeHndl ⟨some ⟨false, false, some 1, some 2⟩,
        [(1, ⟨.socket 3, none, none, 1, []⟩), (2, ⟨.socket 3, none, none, 1, []⟩)], 3⟩ =
      .abort [] false :=
  sslFreeHndl_unknown_topology_aborts _ _ 2 1 ⟨.socket 3, none, none, 1, []⟩
    rfl rfl rfl (by decide) (by decide) (by decide)
    (fun _ _ _ _ hrsk => nomatch hrsk)

/-- Session shape required by the spec on successful promotion (§4.5):
partial-write mode on, server (accept) role, write endpoint a socket BIO
over the given descriptor, and the read endpoint a buffering adapter seeded
with the prebuffered bytes and chained onto the socket BIO exactly when the
prebuffered length is positive — the identical object otherwise. -/
def PromoteShape (fd : Int) (buf : List Nat) (len : Int) (w2 : SSLWorld) : Prop :=
  ∃ s : SSLSess, w2.hndl = some s ∧ s.modePartialWrite = true ∧ s.acceptState = true ∧
    ∃ wb : Nat, s.wbio = some wb ∧
      ∃ wbo : BIOObj, bioGet w2.bios wb = some wbo ∧ wbo.kind = .socket fd ∧
        (if len > 0 then
          ∃ rb : Nat, s.rbio = some rb ∧ rb ≠ wb ∧
            ∃ rbo : BIOObj, bioGet w2.bios rb = some rbo ∧ rbo.kind = .fbuffer ∧
              rbo.bufReadData = buf ∧ rbo.next_bio = some wb
        else s.rbio = s.wbio)

lemma bioGet_modify_head (i : Nat) (o : BIOObj) (rest : List (Nat × BIOObj))
    (f : BIOObj → BIOObj) :
    bioGet (bioModify ((i, o) :: rest) i f) i = some (f o) := by
  unfold bioModify
  rw [List.map_cons, if_pos (rfl : (i, o).1 = i)]
  simp only [bioGet]
  simp

/-- C9: every successful promotion produces a session of the shape the spec
requires. -/
theorem sslPromoteToSSL_success_shape (w : SSLWorld) (fd : Int) (buf : List Nat)
    (len : Int) (h0 : w.hndl = none) (hlen : len = (buf.length : Int)) :
    ∃ w2 : SSLWorld, sslPromoteToSSL true w fd buf len = .ok w2 ∧
      PromoteShape fd buf len w2 := by
  have hbuf : buf.take len.toNat = buf := by
    rw [hlen]
    simp
  by_cases hp : len > 0
  · have hstep : sslPromoteToSSL true w fd buf len = .ok
        { hndl := some { modePartialWrite := true, acceptState := true,
                         rbio := some (w.nextBio + 1), wbio := some w.nextBio },
          bios := (w.nextBio + 1,
              { kind := .fbuffer, next_bio := some w.nextBio,
                bufReadData := buf.take len.toNat }) ::
            bioModify ((w.nextBio, { kind := .socket fd }) :: w.bios) w.nextBio
              (fun o => { o with prev_bio := some (w.nextBio + 1) }),
          nextBio := w.nextBio + 2 } := by
      unfold sslPromoteToSSL
      rw [if_neg (by simp [h0]), if_neg (by simp), if_pos hp]
    refine ⟨_, hstep, ?_⟩
    refine ⟨_, rfl, rfl, rfl, w.nextBio, rfl, ?_⟩
    have hwbo : bioGet ((w.nextBio + 1,
          ({ kind := .fbuffer, next_bio := some w.nextBio,
             bufReadData := buf.take len.toNat } : BIOObj)) ::
        bioModify ((w.nextBio, ({ kind := .socket fd } : BIOObj)) :: w.bios) w.nextBio
          (fun o => { o with prev_bio := some (w.nextBio + 1) })) w.nextBio =
        some { kind := .socket fd, prev_bio := some (w.nextBio + 1) } := by
      rw [bioGet, if_neg (by omega)]
      exact bioGet_modify_head w.nextBio _ w.bios _
    refine ⟨_, hwbo, rfl, ?_⟩
    rw [if_pos hp]
    refine ⟨w.nextBio + 1, rfl, by omega, ?_⟩
    refine ⟨{ kind := .fbuffer, next_bio := some w.nextBio,
              bufReadData := buf.take len.toNat }, ?_, rfl, hbuf, rfl⟩
    rw [bioGet, if_pos rfl]
  · have hstep : sslPromoteToSSL true w fd buf len = .ok
        { hndl := some { modePartialWrite := true, acceptState := true,
                         rbio := some w.nextBio, wbio := some w.nextBio },
          bios := (w.nextBio, { kind := .socket fd }) :: w.bios,
          nextBio := w.nextBio + 1 } := by
      unfold sslPromoteToSSL
      rw [if_neg (by simp [h0]), if_neg (by simp), if_neg hp]
    refine ⟨_, hstep, ?_⟩
    refine ⟨_, rfl, rfl, rfl, w.nextBio, rfl, ?_⟩
    refine ⟨{ kind := .socket fd }, ?_, rfl, ?_⟩
    · rw [bioGet, if_pos rfl]
    · rw [if_neg hp]

/-- C9 witness: a concrete promotion with two prebuffered bytes. -/
theorem sslPromoteToSSL_success_shape_witness :
    ∃ w2 : SSLWorld, sslPromoteToSSL true ⟨none, [], 0⟩ 4 [22, 3] 2 = .ok w2 ∧
      PromoteShape 4 [22, 3] 2 w2 :=
  sslPromoteToSSL_success_shape ⟨none, [], 0⟩ 4 [22, 3] 2 rfl (by decide)

lemma sslPromoteToSSL_ok_hndl (ok : Bool) (w : SSLWorld) (fd : Int) (buf : List Nat)
    (len : Int) (w2 : SSLWorld) (h : sslPromoteToSSL ok w fd buf len = .ok w2) :
    w2.hndl ≠ none := by
  unfold sslPromoteToSSL at h
  repeat' split at h
  all_goals first
    | (injection h with h1
       subst h1
       simp)
    | injection h

/-- C10: `check(!*sslHndl)` (ssl.c line 612) terminates the process, with the
world untouched and in particular before any allocation, whenever the
caller's handle slot is non-NULL on entry (first conjunct); and since every
successful promotion leaves the slot non-NULL, promoting the same handle
again without an intervening release that clears it terminates the process
(second conjunct). -/
theorem sslPromoteToSSL_requires_null_handle :
    (∀ (ok : Bool) (w : SSLWorld) (fd : Int) (buf : List Nat) (len : Int),
        w.hndl ≠ none → sslPromoteToSSL ok w fd buf len = .abort w) ∧
    (∀ (ok : Bool) (w : SSLWorld) (fd : Int) (buf : List Nat) (len : Int) (w2 : SSLWorld),
        sslPromoteToSSL ok w fd buf len = .ok w2 →
        ∀ (ok2 : Bool) (fd2 : Int) (buf2 : List Nat) (len2 : Int),
          sslPromoteToSSL ok2 w2 fd2 buf2 len2 = .abort w2) := by
  constructor
  · intro ok w fd buf len hne
    have hs : w.hndl.isSome = true := Option.isSome_iff_ne_none.2 hne
    simp [sslPromoteToSSL, hs]
  · intro ok w fd buf len w2 h ok2 fd2 buf2 len2
    have hne := sslPromoteToSSL_ok_hndl ok w fd buf len w2 h
    have hs : w2.hndl.isSome = true := Option.isSome_iff_ne_none.2 hne
    simp [sslPromoteToSSL, hs]

/-- C10 witness: promoting a fresh handle succeeds; promoting the resulting
handle again terminates the process with the world unchanged, as does
promoting any handle that is already non-NULL. -/
theorem sslPromoteToSSL_requires_null_handle_witness :
    sslPromoteToSSL true ⟨some ⟨false, false, none, none⟩, [], 0⟩ 4 [] 0 =
      .abort ⟨some ⟨false, false, none, none⟩, [], 0⟩ ∧
    sslPromoteToSSL true
        ⟨some ⟨true, true, some 0, some 0⟩, [(0, ⟨.socket 4, none, none, 1, []⟩)], 1⟩
        5 [] 0 =
      .abort ⟨some ⟨true, true, some 0, some 0⟩, [(0, ⟨.socket 4, none, none, 1, []⟩)], 1⟩ := by
  constructor
  · exact sslPromoteToSSL_requires_null_handle.1 true _ 4 [] 0 (by simp)
  · exact sslPromoteToSSL_requires_null_handle.2 true ⟨none, [], 0⟩ 4 [] 0 _ (by decide)
      true 5 [] 0
